import Mathlib

/-!
Verification development for the validator reward/weight subsystem of the
yogpt_subnet repository (src/yogpt_subnet/validator/validator_.py).

Python floats are modelled as rationals, Python strings as Lean strings
processed through explicit character lists, and the datastore / network side
effects of an orchestration run as explicit outputs of pure functions.
-/

namespace YoGPT

/-! ## Character-level string helpers (models of the Python string primitives used) -/

/-- Model of the lowercase conversion applied by Python `str.lower()`
(ASCII range, which covers every string the checker compares). -/
def charsLower (cs : List Char) : List Char := cs.map Char.toLower

/-- Tests whether the first list is an initial segment of the second. -/
def charsStartWith : List Char → List Char → Bool
  | [], _ => true
  | _ :: _, [] => false
  | a :: as, b :: bs => a == b && charsStartWith as bs

/-- Model of the Python substring test `needle in hay`. -/
def charsHasSub (needle : List Char) : List Char → Bool
  | [] => needle.isEmpty
  | c :: rest => charsStartWith needle (c :: rest) || charsHasSub needle rest

/-- Model of Python `str.split(':')`: splits at every colon, keeping empty
pieces, and yields `[""]` for the empty string. -/
def splitColon : List Char → List (List Char)
  | [] => [[]]
  | c :: rest =>
    if c = ':' then [] :: splitColon rest
    else
      match splitColon rest with
      | [] => [[c]]
      | h :: t => (c :: h) :: t

/-- Numeric value of a list of decimal digit characters, most significant first. -/
def digitsVal (cs : List Char) : Option Nat :=
  if cs ≠ [] ∧ cs.all Char.isDigit then
    some (cs.foldl (fun a c => a * 10 + (c.toNat - 48)) 0)
  else none

/-- Model of Python `str.strip()` as applied implicitly by `int(...)`:
leading and trailing whitespace is removed. -/
def pyStrip (cs : List Char) : List Char :=
  ((cs.dropWhile Char.isWhitespace).reverse.dropWhile Char.isWhitespace).reverse

/-- Model of the Python builtin `int(s)` on a string: optional surrounding
whitespace, an optional sign, then a nonempty run of decimal digits;
anything else raises `ValueError`, modelled as `none`. -/
def pyInt (cs : List Char) : Option Int :=
  match pyStrip cs with
  | [] => none
  | c :: rest =>
    if c = '-' then (digitsVal rest).map (fun n => -(n : Int))
    else if c = '+' then (digitsVal rest).map (fun n => (n : Int))
    else (digitsVal (c :: rest)).map (fun n => (n : Int))

/-! ## Data model -/

/-- Outcome of applying the Python builtin `float(...)` to the `loss` field of
a job record: `missing` when the field is absent (`float(None)` raises
`TypeError`), `uncoercible raw` when the field is present but not numeric
(`float(raw)` raises `ValueError`), `val q` when it coerces to the value `q`. -/
inductive LossField
  | missing : LossField
  | uncoercible (raw : String) : LossField
  | val (q : ℚ) : LossField
deriving DecidableEq

/-- Lines 59-63 of validator_.py: the guarded coercion `float(job_data.get('loss', None))`,
with both exception paths collapsed to `none`. -/
def coerceLoss : LossField → Option ℚ
  | .missing => none
  | .uncoercible _ => none
  | .val q => some q

/-- Fields of a job record consumed by the reward logic. `jobId` is used only
for logging and is omitted. Absent dictionary keys are `none`. -/
structure JobData where
  model_tuned : Option String
  loss : LossField
  totalPipelineTime : Option String
  huggingFaceRepoId : Option String
  minerId : Option String
deriving DecidableEq

/-- One row of the per-model policy table. -/
structure PolicyEntry where
  threshold : ℚ
  training_per_hour : ℚ
  fine_tuning_time : ℚ × ℚ
deriving DecidableEq

/-- The static table `self.model_thresholds` (lines 35-42 of validator_.py). -/
def model_thresholds (m : String) : Option PolicyEntry :=
  if m = "llama2-7b" then some ⟨0.20, 1.2, (10, 12)⟩
  else if m = "OpenELM-270M" then some ⟨0.50, 1.0, (3, 5)⟩
  else if m = "OpenELM-450M" then some ⟨0.35, 1.3, (6, 8)⟩
  else if m = "OpenELM-3B" then some ⟨0.20, 2.2, (10, 12)⟩
  else if m = "GPT2" then some ⟨0.50, 1.5, (3, 5)⟩
  else if m = "LLama3B" then some ⟨0.35, 2.2, (6, 8)⟩
  else none

/-- The fallback entry `self.default_model_threshold` (lines 43-47). -/
def default_model_threshold : PolicyEntry := ⟨4.0, 1.0, (0, 2)⟩

/-- Lines 52-57: policy resolution. A missing or empty (falsy) `model_tuned`
selects the default entry, as does an unrecognized key. -/
def policy_for (model_tuned : Option String) : PolicyEntry :=
  match model_tuned with
  | none => default_model_threshold
  | some m =>
    if m = "" then default_model_threshold
    else (model_thresholds m).getD default_model_threshold

/-- The messages produced by `calculate_reward`, one constructor per format
string of the Python code, carrying the interpolated data. -/
inductive Msg
  | invalidLoss (raw : LossField) : Msg
  | noValidHFModel : Msg
  | invalidDurationNone : Msg
  | invalidDurationFormat (s : String) : Msg
  | unableToParseDuration (s : String) : Msg
  | lossExceedsThreshold : Msg
  | tooQuickly (minT dur : ℚ) : Msg
  | tookLonger (maxT dur : ℚ) : Msg
  | rewardGranted (dur : ℚ) : Msg
deriving DecidableEq

/-- Outcome of the duration-parsing block (lines 79-92): a fractional hour
count, or the two failure modes with their distinct messages. -/
inductive DurationResult
  | ok (hours : ℚ) : DurationResult
  | badFormat (s : String) : DurationResult
  | unparsable (s : String) : DurationResult
deriving DecidableEq

/-- Lines 79-92 of validator_.py: split the duration string at colons; three
parts mean `H:M:S`, two mean `H:M`; any other arity is an invalid format, and
a part rejected by `int(...)` makes the string unparsable. -/
def parse_duration (s : String) : DurationResult :=
  match splitColon s.toList with
  | [a, b, c] =>
    match pyInt a, pyInt b, pyInt c with
    | some h, some m, some sec =>
      .ok ((h : ℚ) + (m : ℚ) / 60 + (sec : ℚ) / 3600)
    | _, _, _ => .unparsable s
  | [a, b] =>
    match pyInt a, pyInt b with
    | some h, some m => .ok ((h : ℚ) + (m : ℚ) / 60)
    | _, _ => .unparsable s
  | _ => .badFormat s

/-- Lines 66-69: a job is eligible only when `huggingFaceRepoId` is present,
truthy, and contains the substring `huggingface` case-insensitively. -/
def hfRepoValid (model_created : Option String) : Bool :=
  match model_created with
  | none => false
  | some s =>
    !(s = "") && charsHasSub "huggingface".toList (charsLower s.toList)

/-- Lines 49-106 of validator_.py: `ModelRewardChecker.calculate_reward`,
returning the reward and the message, checks in source order: loss coercion,
Hugging Face repo, duration presence, duration parse, loss threshold
(rejecting equality), duration window (inclusive bounds), then acceptance
with reward `training_per_hour * duration`. -/
def calculate_reward (job : JobData) : ℚ × Msg :=
  match coerceLoss job.loss with
  | none => (0, .invalidLoss job.loss)
  | some loss =>
    if !(hfRepoValid job.huggingFaceRepoId) then (0, .noValidHFModel)
    else
      match job.totalPipelineTime with
      | none => (0, .invalidDurationNone)
      | some duration_str =>
        match parse_duration duration_str with
        | .badFormat s => (0, .invalidDurationFormat s)
        | .unparsable s => (0, .unableToParseDuration s)
        | .ok duration =>
          if (policy_for job.model_tuned).threshold ≤ loss then
            (0, .lossExceedsThreshold)
          else if duration < (policy_for job.model_tuned).fine_tuning_time.1 then
            (0, .tooQuickly (policy_for job.model_tuned).fine_tuning_time.1 duration)
          else if (policy_for job.model_tuned).fine_tuning_time.2 < duration then
            (0, .tookLonger (policy_for job.model_tuned).fine_tuning_time.2 duration)
          else
            ((policy_for job.model_tuned).training_per_hour * duration,
              .rewardGranted duration)

/-! ## Weight pipeline (lines 136-186 of validator_.py) -/

/-- Model of a Python dict write `d[k] = v` on an insertion-ordered
association list: an existing key keeps its position, a new key is appended. -/
def dictInsert {κ α : Type} [DecidableEq κ] (k : κ) (v : α) :
    List (κ × α) → List (κ × α)
  | [] => [(k, v)]
  | p :: rest => if p.1 = k then (k, v) :: rest else p :: dictInsert k v rest

/-- Stable insertion of an entry into a descending-by-score list: the entry
passes over a previous element only when that element scores strictly less,
so among equal scores earlier elements stay first. -/
def insertDescByScore (x : String × ℚ) :
    List (String × ℚ) → List (String × ℚ)
  | [] => [x]
  | y :: ys => if y.2 ≤ x.2 then x :: y :: ys else y :: insertDescByScore x ys

/-- Model of `sorted(score_dict.items(), key=lambda x: x[1], reverse=True)`
(line 183): a stable sort descending by score, ties keeping their original
relative order. -/
def sortDescByScore : List (String × ℚ) → List (String × ℚ)
  | [] => []
  | x :: xs => insertDescByScore x (sortDescByScore xs)

/-- Lines 182-186: `cut_to_max_allowed_weights` keeps the top
`max_allowed_weights` entries of the stable descending sort. The final
`dict(cut_scores)` is the identity on the association list because the input
dict has unique keys. -/
def cut_to_max_allowed_weights (score_dict : List (String × ℚ))
    (max_allowed_weights : Nat) : List (String × ℚ) :=
  (sortDescByScore score_dict).take max_allowed_weights

/-- The default value of the `max_allowed_weights` parameter (line 182). -/
def max_allowed_weights_default : Nat := 420

/-- Truncation toward zero, the behaviour of the Python builtin `int()` on a
float. -/
def pyTrunc (q : ℚ) : ℤ := if 0 ≤ q then ⌊q⌋ else ⌈q⌉

/-- Lines 177-180: `assign_weight`, the integer truncation of
`score * 1000 / max_score` with `max_score = 1.0`. -/
def assign_weight (score : ℚ) : ℤ :=
  let max_score : ℚ := 1.0
  pyTrunc (score * 1000 / max_score)

/-- Line 151: `next((uid for uid, address in modules_keys.items() if address
== ss58_address), None)` — the first uid whose stored address equals the
given one. -/
def findUid (modules_keys : List (Nat × String)) (addr : String) : Option Nat :=
  (modules_keys.find? (fun p => p.2 = addr)).map (fun p => p.1)

/-- Lines 149-156: build `uid_scores` by resolving each retained address to a
uid, skipping the addresses with no match. -/
def resolve_uid_scores (modules_keys : List (Nat × String))
    (score_dict : List (String × ℚ)) : List (Nat × ℚ) :=
  score_dict.foldl
    (fun acc p =>
      match findUid modules_keys p.1 with
      | some uid => dictInsert uid p.2 acc
      | none => acc)
    []

/-- The parallel uid and weight sequences handed to the single
`self.client.vote(...)` call (line 173). -/
structure VotePayload where
  uids : List Nat
  weights : List ℤ
deriving DecidableEq

/-- Lines 136-175: `set_weights` cuts the score dict, resolves addresses to
uids, and either aborts (no valid uid: lines 159-161, modelled as `none`) or
produces the single vote payload. The exception handler around the vote call
(lines 172-175) only swallows network errors and does not change what is
submitted. -/
def set_weights (modules_keys : List (Nat × String))
    (score_dict : List (String × ℚ)) : Option VotePayload :=
  let cut := cut_to_max_allowed_weights score_dict max_allowed_weights_default
  let uid_scores := resolve_uid_scores modules_keys cut
  if uid_scores = [] then none
  else
    let weighted_scores := uid_scores.map (fun p => (p.1, assign_weight p.2))
    some ⟨weighted_scores.map (fun p => p.1), weighted_scores.map (fun p => p.2)⟩

/-! ## Orchestrator (lines 108-134 of validator_.py) -/

/-- The datastore write applied to one job document: the exact field set of
the two `job.reference.update({...})` calls (lines 122-126 and 128-131). -/
inductive JobUpdate
  | rewarded (reward : ℚ) (reward_message : Msg) : JobUpdate
  | notRewarded (reward_message : Msg) : JobUpdate
deriving DecidableEq

/-- State of the per-job loop of `reward_completed_jobs` after consuming a
prefix of the job stream: either the loop raised `KeyError` on
`job_data['minerId']` (line 121) with the score dict and updates accumulated
so far, or it ran to completion. -/
inductive LoopResult
  | crash (score_dict : List (String × ℚ)) (updates : List JobUpdate) : LoopResult
  | done (score_dict : List (String × ℚ)) (updates : List JobUpdate) : LoopResult
deriving DecidableEq

/-- Lines 114-131: the per-job loop. A positive reward first reads
`job_data['minerId']` (raising `KeyError` when the key is absent, before any
datastore write for that job), then records `reward / 100` in the score dict
and marks the job rewarded; otherwise the job is marked not rewarded and the
score dict is untouched. -/
def processLoop (score_dict : List (String × ℚ)) (updates : List JobUpdate) :
    List JobData → LoopResult
  | [] => .done score_dict updates
  | job :: rest =>
    let r := calculate_reward job
    if 0 < r.1 then
      match job.minerId with
      | none => .crash score_dict updates
      | some mid =>
        processLoop (dictInsert mid (r.1 / 100) score_dict)
          (updates ++ [.rewarded r.1 r.2]) rest
    else
      processLoop score_dict (updates ++ [.notRewarded r.2]) rest

/-- Observable outcome of one orchestration run: the datastore updates made,
and the vote submission if one happened. A crashed run keeps the updates
already written and never reaches the weight pipeline. -/
inductive RunOutcome
  | crashed (updates : List JobUpdate) : RunOutcome
  | completed (updates : List JobUpdate) (vote : Option VotePayload) : RunOutcome
deriving DecidableEq

/-- Lines 108-134: `reward_completed_jobs`. The job stream and the network
membership snapshot (fetched inside `set_weights`, line 146) are passed as
parameters. After the loop, `set_weights` runs only when the score dict is
non-empty (line 133), and it emits at most one vote payload. -/
def reward_completed_jobs (modules_keys : List (Nat × String))
    (jobs : List JobData) : RunOutcome :=
  match processLoop [] [] jobs with
  | .crash _ updates => .crashed updates
  | .done score_dict updates =>
    .completed updates
      (if score_dict = [] then none else set_weights modules_keys score_dict)

/-! ## Concrete job records and score dicts used as test inputs -/

/-- The llama2-7b acceptance example of the spec: loss 0.15, duration
11:00:00, a valid Hugging Face repo, and a miner id. -/
def job_llama_ok : JobData :=
  { model_tuned := some "llama2-7b"
    loss := .val 0.15
    totalPipelineTime := some "11:00:00"
    huggingFaceRepoId := some "https://huggingface.co/x"
    minerId := some "miner1" }

/-- The same rewardable job but with the `minerId` key absent. -/
def job_no_miner : JobData :=
  { model_tuned := some "llama2-7b"
    loss := .val 0.15
    totalPipelineTime := some "11:00:00"
    huggingFaceRepoId := some "https://huggingface.co/x"
    minerId := none }

/-- A job whose loss 5 is at or above its (default) threshold 4 but whose
`huggingFaceRepoId` is absent. -/
def job_highloss_norepo : JobData :=
  { model_tuned := none
    loss := .val 5
    totalPipelineTime := some "01:00:00"
    huggingFaceRepoId := none
    minerId := some "miner1" }

/-- A llama2-7b job whose loss is exactly the threshold 0.20. -/
def job_boundary_loss : JobData :=
  { model_tuned := some "llama2-7b"
    loss := .val 0.20
    totalPipelineTime := some "11:00:00"
    huggingFaceRepoId := some "huggingface.co/x"
    minerId := some "miner1" }

/-- A three-entry score dict with a tie, for exercising the weight cut. -/
def sdW : List (String × ℚ) := [("a", 1), ("b", 2), ("c", 2)]

/-! ## Shared evaluation lemmas -/

theorem parse_11h : parse_duration "11:00:00" = .ok 11 := by
  have h : "11:00:00".toList = ['1', '1', ':', '0', '0', ':', '0', '0'] := by decide
  simp +decide [parse_duration, h, splitColon, pyInt, pyStrip, digitsVal]

theorem hf_ok_llama : hfRepoValid (some "https://huggingface.co/x") = true := by decide

theorem calc_job_llama_ok :
    calculate_reward job_llama_ok = (13.2, .rewardGranted 11) := by
  simp +decide [calculate_reward, job_llama_ok, coerceLoss, hf_ok_llama, parse_11h,
    policy_for, model_thresholds]
  all_goals norm_num

/-! ## Claims -/

/-- Claim C7: `assign_weight` returns the integer truncation toward zero of
`score * 1000` — floor on nonnegative scores, ceiling on negative ones, with
no rounding and no clamping; score `1.0` yields `1000`, score `0.0034`
yields `3`, and the out-of-range score `2` passes through unclamped as
`2000`. -/
theorem claim_C7 :
    (∀ s : ℚ, 0 ≤ s → assign_weight s = ⌊s * 1000⌋) ∧
    (∀ s : ℚ, s < 0 → assign_weight s = ⌈s * 1000⌉) ∧
    assign_weight 1 = 1000 ∧ assign_weight 0.0034 = 3 ∧ assign_weight 2 = 2000 := by
  have key : ∀ s : ℚ, assign_weight s = pyTrunc (s * 1000) := by
    intro s
    simp [assign_weight]
    norm_num
  refine ⟨?_, ?_, ?_, ?_, ?_⟩
  · intro s hs
    rw [key, pyTrunc, if_pos (by positivity)]
  · intro s hs
    rw [key, pyTrunc, if_neg (by nlinarith)]
  · rw [key, pyTrunc, if_pos (by norm_num)]
    norm_num
  · rw [key, pyTrunc, if_pos (by norm_num)]
    norm_num
  · rw [key, pyTrunc, if_pos (by norm_num)]
    norm_num

/-- Witness for C7 at score 1. -/
theorem claim_C7_witness :
    0 ≤ (1 : ℚ) ∧ assign_weight 1 = ⌊(1 : ℚ) * 1000⌋ :=
  ⟨by norm_num, claim_C7.1 1 (by norm_num)⟩

/-- Claim C9: `calculate_reward` is a total function of the job record:
every run either accepts, returning `training_per_hour * duration` with the
acceptance message, or returns reward `0` with a failure message — no input,
however malformed, escapes these two shapes. -/
theorem claim_C9 :
    ∀ job : JobData,
      (calculate_reward job).1 = 0 ∨
      ∃ d : ℚ, calculate_reward job =
        ((policy_for job.model_tuned).training_per_hour * d, Msg.rewardGranted d) := by
  intro job
  unfold calculate_reward
  split
  · exact Or.inl rfl
  · split
    · exact Or.inl rfl
    · split
      · exact Or.inl rfl
      · split
        · exact Or.inl rfl
        · exact Or.inl rfl
        · split
          · exact Or.inl rfl
          · split
            · exact Or.inl rfl
            · split
              · exact Or.inl rfl
              · exact Or.inr ⟨_, rfl⟩

/-- Counterexample to claim C2 as stated: `job_highloss_norepo` has a
coercible loss 5 at or above its threshold 4, yet `calculate_reward` returns
the Hugging Face rejection, not `(0, "Loss exceeds or equals threshold")`,
because the repo check runs before the loss check. -/
theorem claim_C2_counterexample :
    coerceLoss job_highloss_norepo.loss = some 5 ∧
    (policy_for job_highloss_norepo.model_tuned).threshold ≤ 5 ∧
    calculate_reward job_highloss_norepo ≠ (0, Msg.lossExceedsThreshold) := by
  refine ⟨rfl, ?_, ?_⟩
  · norm_num [job_highloss_norepo, policy_for, default_model_threshold]
  · simp [calculate_reward, job_highloss_norepo, coerceLoss, hfRepoValid]

/-- Claim C2 (amended): for every job with a coercible loss, a valid Hugging
Face repo, and a parsable duration, a loss at or above the policy threshold
yields exactly `(0, "Loss exceeds or equals threshold")`; the boundary
`loss = threshold` is a rejection. -/
theorem claim_C2 :
    ∀ (job : JobData) (loss d : ℚ) (s : String),
      coerceLoss job.loss = some loss →
      hfRepoValid job.huggingFaceRepoId = true →
      job.totalPipelineTime = some s →
      parse_duration s = .ok d →
      (policy_for job.model_tuned).threshold ≤ loss →
      calculate_reward job = (0, Msg.lossExceedsThreshold) := by
  intro job loss d s hl hh ht hd hth
  simp [calculate_reward, hl, hh, ht, hd, hth]

/-- Witness for C2 at the boundary: a llama2-7b job with loss exactly 0.20
is rejected with the threshold message. -/
theorem claim_C2_witness :
    calculate_reward job_boundary_loss = (0, Msg.lossExceedsThreshold) :=
  claim_C2 job_boundary_loss 0.20 11 "11:00:00" rfl (by decide) rfl parse_11h
    (by
      have hp : policy_for job_boundary_loss.model_tuned = ⟨0.20, 1.2, (10, 12)⟩ := by
        simp +decide [job_boundary_loss, policy_for, model_thresholds]
      rw [hp])

/-- Claim C4: whenever `huggingFaceRepoId` is missing or does not contain
the substring `huggingface` case-insensitively, the reward is 0, whatever
the other fields hold (an invalid loss also returns 0, so the guarantee is
unconditional). -/
theorem claim_C4 :
    ∀ job : JobData,
      (job.huggingFaceRepoId = none ∨
        ∀ s : String, job.huggingFaceRepoId = some s →
          charsHasSub "huggingface".toList (charsLower s.toList) = false) →
      (calculate_reward job).1 = 0 := by
  intro job hrepo
  have hfv : hfRepoValid job.huggingFaceRepoId = false := by
    rcases h : job.huggingFaceRepoId with _ | s
    · simp [hfRepoValid]
    · rcases hrepo with hnone | hsub
      · rw [h] at hnone
        exact absurd hnone (by simp)
      · have hx := hsub s h
        simp only [String.toList] at hx
        simp [hfRepoValid, hx]
  rcases hcl : coerceLoss job.loss with _ | loss
  · simp [calculate_reward, hcl]
  · simp [calculate_reward, hcl, hfv]

/-- Witness for C4: a job that would otherwise be rewarded, but with the
repo field absent, earns 0. -/
theorem claim_C4_witness :
    (calculate_reward
      { model_tuned := some "llama2-7b"
        loss := .val 0.15
        totalPipelineTime := some "11:00:00"
        huggingFaceRepoId := none
        minerId := some "miner1" }).1 = 0 :=
  claim_C4 _ (Or.inl rfl)

/-- Claim C1: with a coercible loss, a valid Hugging Face repo, and a
parsable duration, `calculate_reward` accepts exactly when
`loss < threshold` and `min_hours ≤ duration ≤ max_hours` (both bounds in
the pass range), returning `training_per_hour * duration` with the
acceptance message; under the llama2-7b policy, loss 0.15 with duration
11:00:00 and a huggingface.co repo yields reward 13.2. -/
theorem claim_C1 :
    (∀ (job : JobData) (loss d : ℚ) (ds : String),
      coerceLoss job.loss = some loss →
      hfRepoValid job.huggingFaceRepoId = true →
      job.totalPipelineTime = some ds →
      parse_duration ds = .ok d →
      (calculate_reward job =
          ((policy_for job.model_tuned).training_per_hour * d, Msg.rewardGranted d) ↔
        loss < (policy_for job.model_tuned).threshold ∧
          (policy_for job.model_tuned).fine_tuning_time.1 ≤ d ∧
          d ≤ (policy_for job.model_tuned).fine_tuning_time.2)) ∧
    calculate_reward job_llama_ok = (13.2, Msg.rewardGranted 11) := by
  constructor
  · intro job loss d ds hl hh ht hd
    simp only [calculate_reward, hl, hh, ht, hd, Bool.not_true, Bool.false_eq_true,
      if_false]
    split_ifs with h1 h2 h3
    · constructor
      · intro heq
        exact absurd (congrArg Prod.snd heq) (by simp)
      · intro ⟨hlt, _, _⟩
        exact absurd h1 (not_le.mpr hlt)
    · constructor
      · intro heq
        exact absurd (congrArg Prod.snd heq) (by simp)
      · intro ⟨_, hmin, _⟩
        exact absurd h2 (not_lt.mpr hmin)
    · constructor
      · intro heq
        exact absurd (congrArg Prod.snd heq) (by simp)
      · intro ⟨_, _, hmax⟩
        exact absurd h3 (not_lt.mpr hmax)
    · exact ⟨fun _ => ⟨not_le.mp h1, not_lt.mp h2, not_lt.mp h3⟩, fun _ => rfl⟩
  · exact calc_job_llama_ok

/-- Witness for C1: the llama2-7b acceptance example, via the left-to-right
direction of the equivalence. -/
theorem claim_C1_witness :
    calculate_reward job_llama_ok =
      ((policy_for job_llama_ok.model_tuned).training_per_hour * 11,
        Msg.rewardGranted 11) :=
  (claim_C1.1 job_llama_ok 0.15 11 "11:00:00" rfl (by decide) rfl parse_11h).mpr
    (by
      have hp : policy_for job_llama_ok.model_tuned = ⟨0.20, 1.2, (10, 12)⟩ := by
        simp +decide [job_llama_ok, policy_for, model_thresholds]
      rw [hp]
      norm_num)

/-- Claim C3: the duration parser maps every 3-part colon-separated integer
string `H:M:S` to `H + M/60 + S/3600` hours and every 2-part string `H:M` to
`H + M/60`; it fails whenever the string does not split into exactly 2 or 3
colon-separated parts or some part is not an integer, and an absent or
unparsable duration always yields reward 0 in `calculate_reward`; concretely
`"02:30:00"` gives 2.5, `"01:45"` gives 1.75, and `"abc"` fails. -/
theorem claim_C3 :
    (∀ (s : String) (a b c : List Char) (h m sec : ℤ),
      splitColon s.toList = [a, b, c] →
      pyInt a = some h → pyInt b = some m → pyInt c = some sec →
      parse_duration s = .ok ((h : ℚ) + (m : ℚ) / 60 + (sec : ℚ) / 3600)) ∧
    (∀ (s : String) (a b : List Char) (h m : ℤ),
      splitColon s.toList = [a, b] →
      pyInt a = some h → pyInt b = some m →
      parse_duration s = .ok ((h : ℚ) + (m : ℚ) / 60)) ∧
    (∀ s : String,
      (splitColon s.toList).length ≠ 2 → (splitColon s.toList).length ≠ 3 →
      parse_duration s = .badFormat s) ∧
    (∀ (s : String) (a b c : List Char),
      splitColon s.toList = [a, b, c] →
      pyInt a = none ∨ pyInt b = none ∨ pyInt c = none →
      parse_duration s = .unparsable s) ∧
    (∀ (s : String) (a b : List Char),
      splitColon s.toList = [a, b] →
      pyInt a = none ∨ pyInt b = none →
      parse_duration s = .unparsable s) ∧
    parse_duration "02:30:00" = .ok 2.5 ∧
    parse_duration "01:45" = .ok 1.75 ∧
    parse_duration "abc" = .badFormat "abc" ∧
    (∀ job : JobData, job.totalPipelineTime = none →
      (calculate_reward job).1 = 0) ∧
    (∀ (job : JobData) (s : String), job.totalPipelineTime = some s →
      (∀ d : ℚ, parse_duration s ≠ .ok d) →
      (calculate_reward job).1 = 0) := by
  refine ⟨?_, ?_, ?_, ?_, ?_, ?_, ?_, ?_, ?_, ?_⟩
  · intro s a b c h m sec hsplit ha hb hc
    simp only [String.toList] at hsplit
    simp [parse_duration, hsplit, ha, hb, hc]
  · intro s a b h m hsplit ha hb
    simp only [String.toList] at hsplit
    simp [parse_duration, hsplit, ha, hb]
  · intro s h2 h3
    simp only [String.toList] at h2 h3
    rw [parse_duration]
    rcases hsplit : splitColon s.data with _ | ⟨a, _ | ⟨b, _ | ⟨c, _ | t⟩⟩⟩ <;>
      simp [hsplit] at h2 h3 ⊢
  · intro s a b c hsplit hnone
    rw [parse_duration, hsplit]
    rcases hnone with ha | hb | hc
    · simp [ha]
    · rcases hpa : pyInt a <;> simp [hb]
    · rcases hpa : pyInt a <;> rcases hpb : pyInt b <;> simp [hc]
  · intro s a b hsplit hnone
    rw [parse_duration, hsplit]
    rcases hnone with ha | hb
    · simp [ha]
    · rcases hpa : pyInt a <;> simp [hb]
  · have h : "02:30:00".toList = ['0', '2', ':', '3', '0', ':', '0', '0'] := by decide
    simp +decide [parse_duration, h, splitColon, pyInt, pyStrip, digitsVal]
    norm_num
  · have h : "01:45".toList = ['0', '1', ':', '4', '5'] := by decide
    simp +decide [parse_duration, h, splitColon, pyInt, pyStrip, digitsVal]
    norm_num
  · have h : "abc".toList = ['a', 'b', 'c'] := by decide
    simp +decide [parse_duration, h, splitColon]
  · intro job ht
    rcases hcl : coerceLoss job.loss with _ | loss
    · simp [calculate_reward, hcl]
    · rcases hfv : hfRepoValid job.huggingFaceRepoId <;>
        simp [calculate_reward, hcl, hfv, ht]
  · intro job s ht hfail
    rcases hcl : coerceLoss job.loss with _ | loss
    · simp [calculate_reward, hcl]
    · rcases hfv : hfRepoValid job.huggingFaceRepoId
      · simp [calculate_reward, hcl, hfv]
      · rcases hp : parse_duration s with d | s2 | s2
        · exact absurd hp (hfail d)
        · simp [calculate_reward, hcl, hfv, ht, hp]
        · simp [calculate_reward, hcl, hfv, ht, hp]

/-- Witness for C3: the 3-part conjunct applied to `"02:30:00"`. -/
theorem claim_C3_witness :
    parse_duration "02:30:00" =
      .ok (((2 : ℤ) : ℚ) + ((30 : ℤ) : ℚ) / 60 + ((0 : ℤ) : ℚ) / 3600) :=
  claim_C3.1 "02:30:00" ['0', '2'] ['3', '0'] ['0', '0'] 2 30 0 (by decide)
    (by decide) (by decide) (by decide)

/-- Claim C5: one step of the orchestration loop. A job with positive reward
records `reward / 100` under its miner id in the score dict and writes
exactly `status=rewarded`, `reward`, `reward_message` to the datastore;
any other job writes exactly `status=not_rewarded`, `reward_message`, with
no reward field and the score dict untouched. -/
theorem claim_C5 :
    ∀ (sd : List (String × ℚ)) (ups : List JobUpdate) (job : JobData)
      (rest : List JobData),
      (∀ mid : String, job.minerId = some mid →
        0 < (calculate_reward job).1 →
        processLoop sd ups (job :: rest) =
          processLoop (dictInsert mid ((calculate_reward job).1 / 100) sd)
            (ups ++ [.rewarded (calculate_reward job).1 (calculate_reward job).2])
            rest) ∧
      (¬ 0 < (calculate_reward job).1 →
        processLoop sd ups (job :: rest) =
          processLoop sd (ups ++ [.notRewarded (calculate_reward job).2]) rest) := by
  intro sd ups job rest
  constructor
  · intro mid hmid hpos
    simp only [processLoop, if_pos hpos, hmid]
  · intro hneg
    simp only [processLoop, if_neg hneg]

/-- Witness for C5: the rewarded branch on the llama2-7b example job. -/
theorem claim_C5_witness :
    processLoop [] [] [job_llama_ok] =
      processLoop (dictInsert "miner1" ((calculate_reward job_llama_ok).1 / 100) [])
        ([] ++ [.rewarded (calculate_reward job_llama_ok).1
          (calculate_reward job_llama_ok).2]) [] :=
  (claim_C5 [] [] job_llama_ok []).1 "miner1" rfl
    (by rw [calc_job_llama_ok]; norm_num)

/-- Claim C10: `reward_completed_jobs` is not total over job records — a job
whose reward is positive but whose `minerId` key is absent makes the
unguarded lookup raise, aborting the run before the remaining jobs are
processed (the second job here would itself be rewarded) and before any
weight submission. -/
theorem claim_C10 :
    0 < (calculate_reward job_no_miner).1 ∧
    job_no_miner.minerId = none ∧
    reward_completed_jobs [(0, "miner1")] [job_no_miner, job_llama_ok] =
      .crashed [] ∧
    0 < (calculate_reward job_llama_ok).1 := by
  have hsame : calculate_reward job_no_miner = calculate_reward job_llama_ok := rfl
  refine ⟨?_, rfl, ?_, ?_⟩
  · rw [hsame, calc_job_llama_ok]
    norm_num
  · have hpos : 0 < (calculate_reward job_no_miner).1 := by
      rw [hsame, calc_job_llama_ok]
      norm_num
    rw [reward_completed_jobs]
    simp only [processLoop, if_pos hpos]
    rfl
  · rw [calc_job_llama_ok]
    norm_num

/-! ## Lemmas on the stable descending sort -/

theorem length_insertDescByScore (x : String × ℚ) (l : List (String × ℚ)) :
    (insertDescByScore x l).length = l.length + 1 := by
  induction l with
  | nil => rfl
  | cons y ys ih =>
    rw [insertDescByScore]
    split
    · rfl
    · simp [ih]

theorem length_sortDescByScore (l : List (String × ℚ)) :
    (sortDescByScore l).length = l.length := by
  induction l with
  | nil => rfl
  | cons x xs ih => rw [sortDescByScore, length_insertDescByScore, ih, List.length_cons]

theorem mem_insertDescByScore {z x : String × ℚ} {l : List (String × ℚ)} :
    z ∈ insertDescByScore x l ↔ z = x ∨ z ∈ l := by
  induction l with
  | nil => simp [insertDescByScore]
  | cons y ys ih =>
    rw [insertDescByScore]
    split
    · simp
    · simp [ih]
      tauto

theorem pairwise_insertDescByScore {x : String × ℚ} {l : List (String × ℚ)}
    (hl : l.Pairwise (fun a b => b.2 ≤ a.2)) :
    (insertDescByScore x l).Pairwise (fun a b => b.2 ≤ a.2) := by
  induction l with
  | nil => simp [insertDescByScore]
  | cons y ys ih =>
    rw [insertDescByScore]
    rcases List.pairwise_cons.mp hl with ⟨hy, hys⟩
    split
    · rename_i hle
      exact List.pairwise_cons.mpr
        ⟨fun z hz => by
          rcases List.mem_cons.mp hz with hzy | hzys
          · exact hzy ▸ hle
          · exact le_trans (hy z hzys) hle,
        hl⟩
    · rename_i hgt
      exact List.pairwise_cons.mpr
        ⟨fun z hz => by
          rcases mem_insertDescByScore.mp hz with hzx | hzys
          · exact hzx ▸ le_of_not_le hgt
          · exact hy z hzys,
        ih hys⟩

theorem pairwise_sortDescByScore (l : List (String × ℚ)) :
    (sortDescByScore l).Pairwise (fun a b => b.2 ≤ a.2) := by
  induction l with
  | nil => simp [sortDescByScore]
  | cons x xs ih => exact pairwise_insertDescByScore ih

theorem filter_insertDescByScore (x : String × ℚ) (l : List (String × ℚ)) (s : ℚ) :
    (insertDescByScore x l).filter (fun p => p.2 = s) =
      if x.2 = s then x :: l.filter (fun p => p.2 = s)
      else l.filter (fun p => p.2 = s) := by
  induction l with
  | nil => simp [insertDescByScore, List.filter_cons, decide_eq_true_eq]
  | cons y ys ih =>
    rw [insertDescByScore]
    split
    · simp only [List.filter_cons, decide_eq_true_eq]
    · rename_i hgt
      by_cases hys : y.2 = s
      · have hxs : ¬ x.2 = s := fun hxe => hgt (le_of_eq (hys.trans hxe.symm))
        simp [List.filter_cons, ih, hys, hxs]
      · simp [List.filter_cons, ih, hys]

theorem filter_sortDescByScore (l : List (String × ℚ)) (s : ℚ) :
    (sortDescByScore l).filter (fun p => p.2 = s) =
      l.filter (fun p => p.2 = s) := by
  induction l with
  | nil => rfl
  | cons x xs ih =>
    rw [sortDescByScore, filter_insertDescByScore, List.filter_cons]
    by_cases hx : x.2 = s
    · simp [hx, ih]
    · simp [hx, ih]

theorem pairwise_take_drop {α : Type} {r : α → α → Prop} {l : List α} {n : Nat}
    (hp : l.Pairwise r) : ∀ a ∈ l.take n, ∀ b ∈ l.drop n, r a b := by
  have h := List.take_append_drop n l
  rw [← h] at hp
  exact (List.pairwise_append.mp hp).2.2

/-- Claim C6: `cut_to_max_allowed_weights` keeps exactly
`min max_allowed_weights n` of the `n` input entries (the default cap being
420), every retained score dominates every dropped score, and the underlying
sort is stable: for each score value, the entries carrying it appear in
their original relative order. -/
theorem claim_C6 :
    ∀ (score_dict : List (String × ℚ)) (n : Nat),
      (cut_to_max_allowed_weights score_dict n).length = min n score_dict.length ∧
      (∀ p ∈ cut_to_max_allowed_weights score_dict n,
        ∀ q ∈ (sortDescByScore score_dict).drop n, q.2 ≤ p.2) ∧
      (∀ s : ℚ, (sortDescByScore score_dict).filter (fun p => p.2 = s) =
        score_dict.filter (fun p => p.2 = s)) ∧
      max_allowed_weights_default = 420 := by
  intro score_dict n
  refine ⟨?_, ?_, ?_, rfl⟩
  · rw [cut_to_max_allowed_weights, List.length_take, length_sortDescByScore]
  · intro p hp q hq
    exact pairwise_take_drop (pairwise_sortDescByScore score_dict) p hp q hq
  · exact filter_sortDescByScore score_dict

/-- Witness for C6 on the three-entry dict `sdW` with cap 2: the retained
entry `("c", 2)` dominates the dropped entry `("a", 1)`. -/
theorem claim_C6_witness :
    (cut_to_max_allowed_weights sdW 2).length = min 2 sdW.length ∧ (1 : ℚ) ≤ 2 :=
  ⟨(claim_C6 sdW 2).1,
    (claim_C6 sdW 2).2.1 ("c", 2)
      (by norm_num [cut_to_max_allowed_weights, sortDescByScore, insertDescByScore, sdW])
      ("a", 1)
      (by norm_num [sortDescByScore, insertDescByScore, sdW])⟩

/-- Claim C8: in a completed orchestration run the vote payload — emitted at
most once by construction of the model — appears only when the score dict is
non-empty and some retained address resolves to a uid: an empty score dict
skips the weight pipeline, and an empty resolved uid set makes `set_weights`
abort without submitting. -/
theorem claim_C8 :
    ∀ (modules_keys : List (Nat × String)) (jobs : List JobData),
      (∀ (sd : List (String × ℚ)) (ups : List JobUpdate),
        processLoop [] [] jobs = .done sd ups → sd = [] →
        reward_completed_jobs modules_keys jobs = .completed ups none) ∧
      (∀ sd : List (String × ℚ),
        resolve_uid_scores modules_keys
          (cut_to_max_allowed_weights sd max_allowed_weights_default) = [] →
        set_weights modules_keys sd = none) ∧
      (∀ (ups : List JobUpdate) (v : VotePayload),
        reward_completed_jobs modules_keys jobs = .completed ups (some v) →
        ∃ (sd : List (String × ℚ)) (ups2 : List JobUpdate),
          processLoop [] [] jobs = .done sd ups2 ∧ sd ≠ [] ∧
          resolve_uid_scores modules_keys
            (cut_to_max_allowed_weights sd max_allowed_weights_default) ≠ []) := by
  intro modules_keys jobs
  refine ⟨?_, ?_, ?_⟩
  · intro sd ups hloop hsd
    rw [reward_completed_jobs, hloop, hsd]
    simp
  · intro sd hres
    simp [set_weights, hres]
  · intro ups v hrun
    rw [reward_completed_jobs] at hrun
    cases hloop : processLoop [] [] jobs with
    | crash sd0 ups0 =>
      rw [hloop] at hrun
      exact absurd hrun (by simp)
    | done sd0 ups0 =>
      rw [hloop] at hrun
      dsimp only at hrun
      refine ⟨sd0, ups0, rfl, ?_, ?_⟩
      · intro hsd0
        rw [if_pos hsd0] at hrun
        simp at hrun
      · intro hres
        by_cases hsd0 : sd0 = []
        · rw [if_pos hsd0] at hrun
          simp at hrun
        · rw [if_neg hsd0] at hrun
          simp only [RunOutcome.completed.injEq] at hrun
          obtain ⟨h1, h2⟩ := hrun
          rw [set_weights] at h2
          simp [hres] at h2

/-- Witness for C8: with no jobs the loop completes with an empty score dict
and the run submits nothing. -/
theorem claim_C8_witness :
    reward_completed_jobs [] [] = .completed [] none :=
  (claim_C8 [] []).1 [] [] rfl rfl

end YoGPT
